import Mathlib

/-!
Shallow embedding of the client-side formset / record-management script
`src/assets/js/main.js` of the gpp-django repository, together with proofs
about the behaviours described in its specification.

Strings are modelled as `List Char`; the JavaScript string primitives used
by the script (`indexOf`, `lastIndexOf`, `slice`, string concatenation,
`parseInt`) are embedded below with JavaScript's semantics (`-1` for a
missing occurrence, negative-index clamping in `slice`, and so on).
The DOM state touched by each handler is modelled as an explicit record or
list, and each jQuery handler becomes a pure state-transforming function
that follows the source line by line.
-/

/-- Convert a string literal to the character-list representation used
throughout this development. -/
def str (s : String) : List Char := s.data

/-- The placeholder token that Django puts into the names/ids of the
controls of a blueprint (empty) form: the source uses the literal
string in lines 523 and 532-541 of main.js. -/
def placeholderTok : List Char := str "__prefix__"

/-- The marker that ends the name/id of the management form's counter
control (`input[name$="TOTAL_FORMS"]`, main.js line 515). -/
def totalFormsMarker : List Char := str "TOTAL_FORMS"

/-- First index (0-based) at which `pat` occurs in `s`, if any.
`jsIndexOf` below wraps this with JavaScript's `-1` convention. -/
def findSub (s pat : List Char) : Option Nat :=
  match s with
  | [] => if pat.isPrefixOf ([] : List Char) then some 0 else none
  | c :: t =>
    if pat.isPrefixOf (c :: t) then some 0
    else (findSub t pat).map (fun i => i + 1)

/-- Last index (0-based) at which `pat` occurs in `s`, if any.
`jsLastIndexOf` below wraps this with JavaScript's `-1` convention. -/
def findLastSub (s pat : List Char) : Option Nat :=
  match s with
  | [] => if pat.isPrefixOf ([] : List Char) then some 0 else none
  | c :: t =>
    match findLastSub t pat with
    | some i => some (i + 1)
    | none => if pat.isPrefixOf (c :: t) then some 0 else none

/-- Whether `s` contains `pat` as a contiguous substring; this is the
semantics of the jQuery attribute selector `*[name*="__prefix__"]`
(main.js line 532). -/
def strContains (s pat : List Char) : Bool := (findSub s pat).isSome

/-- JavaScript `s.indexOf(pat)`: first occurrence, `-1` when absent. -/
def jsIndexOf (s pat : List Char) : Int :=
  match findSub s pat with
  | some i => (i : Int)
  | none => -1

/-- JavaScript `s.lastIndexOf(pat)`: last occurrence, `-1` when absent. -/
def jsLastIndexOf (s pat : List Char) : Int :=
  match findLastSub s pat with
  | some i => (i : Int)
  | none => -1

/-- JavaScript `s.slice(b)`: from index `b` (clamped, negative counts
from the end) to the end of the string. -/
def jsSliceFrom (s : List Char) (b : Int) : List Char :=
  let len : Int := s.length
  let start : Int := if b < 0 then max (len + b) 0 else min b len
  s.drop start.toNat

/-- JavaScript `s.slice(b, e)`: from index `b` to index `e` exclusive,
both clamped, negative indices counting from the end. -/
def jsSlice2 (s : List Char) (b e : Int) : List Char :=
  let len : Int := s.length
  let start : Int := if b < 0 then max (len + b) 0 else min b len
  let stop : Int := if e < 0 then max (len + e) 0 else min e len
  (s.take stop.toNat).drop start.toNat

/-- JavaScript `String(n)` for the (integral, non-negative) counter
values the script manipulates. -/
def natChars (n : Nat) : List Char := str (Nat.repr n)

/-- One form control of a (cloned or rendered) form: its `@name` and
`@id` attributes. -/
structure Control where
  name : List Char
  id : List Char
deriving DecidableEq

/-- One sub-form (row): the `@data-form-type` attribute of its
enclosing element and its controls. -/
structure Form where
  formType : List Char
  controls : List Control
deriving DecidableEq

/-- The state of one Django formset group that `addEmptyForm`
(main.js lines 510-571) reads and writes: the two management-form
counter controls (the `value` of `MAX_NUM_FORMS`, and the `name`,
`id` and `value` of `TOTAL_FORMS`), the list of rows in the group's
`div.fieldsets` container, and whether the add-row control (the
`label` around the context element, main.js line 518) is visible. -/
structure Formset where
  maxNumValue : Nat
  totalName : List Char
  totalId : List Char
  totalValue : Nat
  forms : List Form
  addControlVisible : Bool
deriving DecidableEq

def defaultControl : Control := { name := [], id := [] }

def defaultForm : Form := { formType := [], controls := [] }

/-- main.js lines 583-586: `generateNewFormPrefix(control, attrName,
prefixNumber)` returns
`attrValue.slice(0, attrValue.indexOf('TOTAL_FORMS')) + String(prefixNumber)`
where `attrValue` is the chosen attribute of the TOTAL_FORMS control;
here the attribute's value is passed directly. -/
def generateNewFormPrefix (attrValue : List Char) (prefixNumber : Nat) : List Char :=
  jsSlice2 attrValue 0 (jsIndexOf attrValue totalFormsMarker) ++ natChars prefixNumber

/-- main.js lines 536-542: for each control of the clone selected by
`*[name*="__prefix__"]`, replace `@name` by
`newFormPrefixName + val.slice(val.lastIndexOf('__prefix__') + 10)`
and `@id` by the same computation over the id with `newFormPrefixId`.
A control whose name does not contain the placeholder is not selected
and is left untouched. -/
def renameControl (newNamePre newIdPre : List Char) (c : Control) : Control :=
  if strContains c.name placeholderTok then
    { name := newNamePre ++ jsSliceFrom c.name (jsLastIndexOf c.name placeholderTok + 10),
      id := newIdPre ++ jsSliceFrom c.id (jsLastIndexOf c.id placeholderTok + 10) }
  else c

/-- Renaming applied to every control of a cloned form. -/
def renameForm (newNamePre newIdPre : List Char) (f : Form) : Form :=
  { f with controls := f.controls.map (renameControl newNamePre newIdPre) }

/-- main.js lines 510-571, `addEmptyForm(formType, context)`.

The DOM traversal helpers `getManagementFormContainer` (line 600) and
`getNewFormParent` (line 616) only locate the group that `fs` already
denotes, so they have no separate embedding.  In source order:

1. read `maxNumForms` and `newFormPrefixNumber` from the counter
   controls (lines 513-516);
2. hide the add control when `(newFormPrefixNumber+1) >= maxNumForms`
   (lines 517-519);
3. clone every child of `#empty_forms` whose `@data-form-type` equals
   `formType` and append the clones to the group's row container
   (lines 522-524);
4. rename the `@name`/`@id` of each cloned control whose name contains
   `__prefix__` (lines 532-542); the widget re-initialisation of lines
   543-565 does not change names, ids or counter values;
5. write `newFormPrefixNumber + 1` back to the TOTAL_FORMS control
   (line 569). -/
def addEmptyForm (formType : List Char) (fs : Formset) (emptyForms : List Form) : Formset :=
  let newFormPrefixNumber := fs.totalValue
  let addVisible :=
    if fs.maxNumValue ≤ newFormPrefixNumber + 1 then false else fs.addControlVisible
  let cloned := emptyForms.filter (fun f => f.formType == formType)
  let newFormPrefixName := generateNewFormPrefix fs.totalName newFormPrefixNumber
  let newFormPrefixId := generateNewFormPrefix fs.totalId newFormPrefixNumber
  { fs with
      addControlVisible := addVisible,
      forms := fs.forms ++ cloned.map (renameForm newFormPrefixName newFormPrefixId),
      totalValue := newFormPrefixNumber + 1 }

/-- One row of the duplicates table (`#duplicates-table`): the value of
its `primary_record` radio, whether that radio is checked, the cell
styling classes touched by the handler of main.js lines 78-91, the
checked radio of the adjacent `.duplicate-cell` (`none` when neither
the "merge" nor the "not related" radio is checked, `some true` when
the merge radio is checked, `some false` for the other one), and
whether the duplicate cell's labels carry the `disabled` class. -/
structure DupRow where
  primaryValue : Nat
  primaryChecked : Bool
  borderLeft : Bool
  labelSelected : Bool
  mergeSel : Option Bool
  mergeDisabled : Bool
deriving DecidableEq

/-- The browser's radio-group behaviour for `name="primary_record"`
radios: clicking the radio of row `target` checks it and unchecks all
radios of the same group, before the jQuery click handler runs. -/
def radioSelectPrimary {I : Type} [DecidableEq I] (rows : I → DupRow) (target : I) :
    I → DupRow :=
  fun j =>
    if j = target then { rows j with primaryChecked := true }
    else { rows j with primaryChecked := false }

/-- main.js lines 78-91, the `#duplicates-table` click handler for
`[name="primary_record"]`, over the rows it already sees checked or
unchecked.  In source order: reset every row (remove `border-left`
and `selected`, remove `disabled` from the duplicate-cell labels and
show them); add `border-left` to the clicked row's primary cell; if
the clicked radio is checked, mark its label `selected`, uncheck any
checked radio of the clicked row's adjacent duplicate cell, and set
that cell's labels `disabled`. -/
def primaryRecordHandler {I : Type} [DecidableEq I] (rows : I → DupRow) (target : I) :
    I → DupRow :=
  let reset := fun j =>
    { rows j with borderLeft := false, labelSelected := false, mergeDisabled := false }
  let bordered := fun j =>
    if j = target then { reset j with borderLeft := true } else reset j
  if (rows target).primaryChecked then
    fun j =>
      if j = target then
        { bordered j with labelSelected := true, mergeSel := none, mergeDisabled := true }
      else bordered j
  else bordered

/-- A full click on the `primary_record` radio of row `target`: the
radio-group update followed by the handler of main.js lines 78-91. -/
def primaryRecordClick {I : Type} [DecidableEq I] (rows : I → DupRow) (target : I) :
    I → DupRow :=
  primaryRecordHandler (radioSelectPrimary rows target) target

/-- The hard-coded candidate record of `addDuplicate`
(main.js line 375). -/
def duplicateRecordId : Nat := 156

/-- The table row whose markup `addDuplicate` appends (main.js lines
384-403): an unchecked `primary_record` radio carrying the record id,
no checked radio in the duplicate cell, and both duplicate-cell
labels created with the `disabled` class. -/
def newDuplicateRow (idValue : Nat) : DupRow :=
  { primaryValue := idValue, primaryChecked := false, borderLeft := false,
    labelSelected := false, mergeSel := none, mergeDisabled := true }

/-- The duplicates page state that `addDuplicate` reads and writes:
the table body's rows and the notification under
`#duplicates-search-form` (`none` absent, `some true` the success
notification, `some false` the error notification). -/
structure DuplicatesPage where
  rows : List DupRow
  notification : Option Bool
deriving DecidableEq

/-- main.js lines 373-408, `addDuplicate()`: remove any previous
notification; if some `primary_record` radio already has the candidate
record's id as value, only show the error notification; otherwise
append the new row to the table body and show the success
notification. -/
def addDuplicate (page : DuplicatesPage) : DuplicatesPage :=
  let cleared := { page with notification := (none : Option Bool) }
  let alreadyInTable := page.rows.any (fun r => r.primaryValue == duplicateRecordId)
  if alreadyInTable then { cleared with notification := some false }
  else
    { cleared with
        rows := cleared.rows ++ [newDuplicateRow duplicateRecordId],
        notification := some true }

/-- One fieldset (row) in a sibling scope of the name/identity
formsets: the `preferred` checkbox, the `authorised` checkbox and the
`border-left` styling class (main.js lines 194-218). -/
structure NameFieldset where
  preferredChecked : Bool
  authorisedChecked : Bool
  borderLeft : Bool
deriving DecidableEq

/-- The browser's checkbox behaviour: clicking the `preferred`
checkbox of fieldset `target` toggles it before the handler runs. -/
def togglePreferredAt {I : Type} [DecidableEq I] (sibs : I → NameFieldset) (target : I) :
    I → NameFieldset :=
  fun j =>
    if j = target then { sibs j with preferredChecked := !(sibs j).preferredChecked }
    else sibs j

/-- The browser's checkbox behaviour for the `authorised` checkbox. -/
def toggleAuthorisedAt {I : Type} [DecidableEq I] (sibs : I → NameFieldset) (target : I) :
    I → NameFieldset :=
  fun j =>
    if j = target then { sibs j with authorisedChecked := !(sibs j).authorisedChecked }
    else sibs j

/-- main.js lines 194-205, the click handler for
`input[name*="preferred"]`, over the sibling fieldsets of the clicked
fieldset.  In source order: uncheck the checked `preferred` boxes of
the siblings (line 196); set the clicked fieldset's `preferred` box
checked (line 198); remove `border-left` from the siblings (line 200);
if the clicked box is checked — it is, line 198 just set it — add
`border-left` to the clicked fieldset (lines 202-204). -/
def preferredHandler {I : Type} [DecidableEq I] (sibs : I → NameFieldset) (target : I) :
    I → NameFieldset :=
  let s1 := fun j =>
    if j = target then sibs j else { sibs j with preferredChecked := false }
  let s2 := fun j =>
    if j = target then { s1 j with preferredChecked := true } else s1 j
  let s3 := fun j =>
    if j = target then s2 j else { s2 j with borderLeft := false }
  if (s2 target).preferredChecked then
    fun j => if j = target then { s3 j with borderLeft := true } else s3 j
  else s3

/-- main.js lines 207-218, the click handler for
`input[name*="authorised"]`, structured exactly as `preferredHandler`
but over the `authorised` checkboxes. -/
def authorisedHandler {I : Type} [DecidableEq I] (sibs : I → NameFieldset) (target : I) :
    I → NameFieldset :=
  let s1 := fun j =>
    if j = target then sibs j else { sibs j with authorisedChecked := false }
  let s2 := fun j =>
    if j = target then { s1 j with authorisedChecked := true } else s1 j
  let s3 := fun j =>
    if j = target then s2 j else { s2 j with borderLeft := false }
  if (s2 target).authorisedChecked then
    fun j => if j = target then { s3 j with borderLeft := true } else s3 j
  else s3

/-- A full click on the `preferred` checkbox of fieldset `target`. -/
def preferredClick {I : Type} [DecidableEq I] (sibs : I → NameFieldset) (target : I) :
    I → NameFieldset :=
  preferredHandler (togglePreferredAt sibs target) target

/-- A full click on the `authorised` checkbox of fieldset `target`. -/
def authorisedClick {I : Type} [DecidableEq I] (sibs : I → NameFieldset) (target : I) :
    I → NameFieldset :=
  authorisedHandler (toggleAuthorisedAt sibs target) target

/-- The observable state of one inline form that `toggleDeleteInline`
(main.js lines 762-803) manipulates.  Per the HTML structure the
function's documentation requires, the DELETE checkbox lives inside
the `inline-deletable` part of the form (not in the header), so it is
a field of its own, distinct from the header's preferred/authorised
checkbox. -/
structure InlineForm where
  headerInactive : Bool
  headerChecked : Bool
  toggleButtonInactive : Bool
  headerCheckboxHidden : Bool
  borderLeft : Bool
  deletableHidden : Bool
  labelDanger : Bool
  labelSave : Bool
  labelUndoText : Bool
  deleteButtonShown : Bool
  deleteChecked : Bool
deriving DecidableEq

/-- main.js lines 762-803, `toggleDeleteInline(event, button)`.  In
source order: toggle `inactive` on the header; uncheck the header's
checked checkboxes; drop `border-left`; toggle `inactive` on the
toggle-tab button; toggle the visibility of the header checkbox's
parent; toggle `none` on the `inline-deletable` part; depending on
the resulting visibility swap the label between its danger and save
representations (adding or removing the Undo text and the
delete-permanently button); finally toggle the DELETE checkbox. -/
def toggleDeleteInline (f : InlineForm) : InlineForm :=
  let f1 := { f with
    headerInactive := !f.headerInactive,
    headerChecked := false,
    borderLeft := false,
    toggleButtonInactive := !f.toggleButtonInactive,
    headerCheckboxHidden := !f.headerCheckboxHidden }
  let f2 := { f1 with deletableHidden := !f1.deletableHidden }
  let f3 :=
    if f2.deletableHidden then
      { f2 with labelDanger := false, labelSave := true,
                labelUndoText := true, deleteButtonShown := true }
    else
      { f2 with labelSave := false, labelDanger := true,
                labelUndoText := false, deleteButtonShown := false }
  { f3 with deleteChecked := !f3.deleteChecked }

/-- The state that `deleteField` (main.js lines 622-626) can observe:
whether the deletion target carries the hiding class `none`, whether
the enclosing formset's group-level label is shown, and — for the
frame property — the checked states of all DELETE checkboxes and the
values of all other form controls on the page, which the function
never touches. -/
structure FieldDeletionView where
  targetHidden : Bool
  groupNoticeShown : Bool
  deleteCheckboxes : List Bool
  controlValues : List (List Char)
deriving DecidableEq

/-- main.js lines 622-626, `deleteField(el, toDelete)`: add the class
`none` to the closest `toDelete` ancestor of the trigger, and show
the enclosing formset's group-level label. -/
def deleteField (v : FieldDeletionView) : FieldDeletionView :=
  { v with targetHidden := true, groupNoticeShown := true }

/-- The `fields` object of one fetched transcription record
(main.js lines 316-324): the stringified `order` and the
transcription text. -/
structure TranscriptionFields where
  order : List Char
  transcription : List Char
deriving DecidableEq

/-- One record of the JSON array returned by the `transcriptions`
fetch. -/
structure TranscriptionRec where
  pk : Nat
  fields : TranscriptionFields
deriving DecidableEq

/-- Leading decimal digits of a character list. -/
def leadingDigits : List Char → List Char
  | [] => []
  | c :: cs => if c.isDigit then c :: leadingDigits cs else []

/-- Numeric value of a list of decimal digits, most significant
first. -/
def digitsToNat (ds : List Char) : Nat :=
  ds.foldl (fun acc c => acc * 10 + (c.toNat - 48)) 0

/-- JavaScript whitespace skipped by `parseInt`. -/
def jsWhitespace (c : Char) : Bool :=
  c = ' ' || c = '\t' || c = '\n' || c = '\r'

/-- JavaScript `parseInt(s)` in radix 10: skip leading whitespace,
read an optional sign and then leading decimal digits; `none` models
`NaN` (no digits at all). -/
def parseIntJS (s : List Char) : Option Int :=
  let t := s.dropWhile jsWhitespace
  match t with
  | '-' :: rest =>
    let ds := leadingDigits rest
    if ds = [] then none else some (-(digitsToNat ds : Int))
  | '+' :: rest =>
    let ds := leadingDigits rest
    if ds = [] then none else some ((digitsToNat ds : Int))
  | _ =>
    let ds := leadingDigits t
    if ds = [] then none else some ((digitsToNat ds : Int))

/-- The sort key of one transcription record: `parseInt(t.fields.order)`
(main.js line 319), `none` for `NaN`. -/
def transcriptionKey (t : TranscriptionRec) : Option Int :=
  parseIntJS t.fields.order

/-- The key with `NaN` defaulted, used only to state sortedness. -/
def transcriptionKeyD (t : TranscriptionRec) : Int :=
  (transcriptionKey t).getD 0

/-- The comparator of main.js line 319,
`parseInt(a.fields.order) - parseInt(b.fields.order)`, composed with
the `Array.prototype.sort` rule that a `NaN` comparator result counts
as `+0`. -/
def transcriptionCmp (a b : TranscriptionRec) : Int :=
  match transcriptionKey a, transcriptionKey b with
  | some x, some y => x - y
  | _, _ => 0

/-- Stable insertion of one record into an already sorted list: the
record goes immediately before the first element it compares `<= 0`
against, so an element with an equal key keeps its original side. -/
def insertTranscription (x : TranscriptionRec) : List TranscriptionRec → List TranscriptionRec
  | [] => [x]
  | y :: ys =>
    if transcriptionCmp x y ≤ 0 then x :: y :: ys
    else y :: insertTranscription x ys

/-- `data.sort(comparator)` of main.js line 319: `Array.prototype.sort`
is stable, so it is embedded as a stable (insertion) sort with the
script's comparator. -/
def sortTranscriptions : List TranscriptionRec → List TranscriptionRec
  | [] => []
  | x :: xs => insertTranscription x (sortTranscriptions xs)

/-- One rendered transcription fragment (main.js lines 321-324): the
loop index `i` used in the generated names/ids, the record's `pk`
written into the hidden id input, and the textarea content. -/
structure RenderedTranscription where
  idx : Nat
  pk : Nat
  transcription : List Char
deriving DecidableEq

/-- Index-aware map used to embed `orderedData.forEach(function(t, i))`. -/
def mapWithIndexFrom {A B : Type} (f : Nat → A → B) : Nat → List A → List B
  | _, [] => []
  | k, x :: xs => f k x :: mapWithIndexFrom f (k + 1) xs

/-- `mapWithIndexFrom` starting at index 0. -/
def mapWithIndex {A B : Type} (f : Nat → A → B) (l : List A) : List B :=
  mapWithIndexFrom f 0 l

/-- main.js lines 315-329, the rendering part of
`fetchTranscriptions()`: sort the fetched records with the stable
comparator sort, then render one hidden id input and one textarea per
record, indexed by the loop counter. -/
def renderTranscriptions (data : List TranscriptionRec) : List RenderedTranscription :=
  mapWithIndex
    (fun i t => { idx := i, pk := t.pk, transcription := t.fields.transcription })
    (sortTranscriptions data)

/-- The concrete input of testable property 6 of the specification. -/
def egTranscriptions : List TranscriptionRec :=
  [ { pk := 2, fields := { order := str "1", transcription := str "second" } },
    { pk := 1, fields := { order := str "0", transcription := str "first" } } ]

/-- A concrete formset used to instantiate the add-row theorems: one
nesting level, counter at 1, bound 3. -/
def egFormset : Formset :=
  { maxNumValue := 3, totalName := str "form-TOTAL_FORMS",
    totalId := str "id_form-TOTAL_FORMS", totalValue := 1,
    forms := [], addControlVisible := true }

/-- A concrete blueprint form with one placeholder-carrying control. -/
def egBlueprint : Form :=
  { formType := str "row",
    controls := [ { name := str "row-__prefix__-title", id := str "id_row-__prefix__-title" } ] }

/-- A blueprint whose only control has the placeholder token in its
`@id` but not in its `@name`: the jQuery selector of main.js line 532
(`*[name*="__prefix__"]`) does not select it. -/
def cexBlueprint : Form :=
  { formType := str "row",
    controls := [ { name := str "plain", id := str "id___prefix__-x" } ] }

/-- Two concrete duplicates-table rows: row 0 is the current primary
and has a checked merge radio in its adjacent duplicate cell, row 1 is
unselected. -/
def cexDupRows : Fin 2 → DupRow := fun j =>
  if j = 0 then
    { primaryValue := 1, primaryChecked := true, borderLeft := true,
      labelSelected := true, mergeSel := some true, mergeDisabled := true }
  else
    { primaryValue := 2, primaryChecked := false, borderLeft := false,
      labelSelected := false, mergeSel := none, mergeDisabled := false }

/-- Two concrete sibling fieldsets, both with both flags checked. -/
def egNameFieldsets : Fin 2 → NameFieldset := fun j =>
  if j = 0 then
    { preferredChecked := true, authorisedChecked := true, borderLeft := true }
  else
    { preferredChecked := true, authorisedChecked := true, borderLeft := false }

/-- A concrete duplicates page without the candidate record. -/
def egDuplicatesPage : DuplicatesPage :=
  { rows := [ { primaryValue := 3, primaryChecked := false, borderLeft := false,
                labelSelected := false, mergeSel := none, mergeDisabled := true } ],
    notification := some false }

/- ------------------------------------------------------------------
Helper lemmas about the embedded JavaScript string primitives and
about lists.  None of these is a claim theorem.
------------------------------------------------------------------ -/

lemma listTakeLeft {A : Type} (l1 l2 : List A) : (l1 ++ l2).take l1.length = l1 := by
  induction l1 with
  | nil => simp
  | cons a t ih => simp [ih]

lemma listGetDAppendLength {A : Type} (l1 l2 : List A) (x : A) (d : A) :
    (l1 ++ x :: l2).getD l1.length d = x := by
  induction l1 with
  | nil => simp
  | cons a t ih => simpa using ih

lemma listGetDMap {A B : Type} (g : A → B) (l : List A) (j : Nat) (dA : A) (dB : B)
    (hj : j < l.length) : (l.map g).getD j dB = g (l.getD j dA) := by
  rw [List.getD_eq_getElem (l.map g) dB (by simpa using hj),
    List.getD_eq_getElem l dA hj, List.getElem_map]

lemma listNodupAppendSingleton {A : Type} (l : List A) (x : A)
    (hl : l.Nodup) (hx : x ∉ l) : (l ++ [x]).Nodup := by
  induction l with
  | nil => simp
  | cons a t ih =>
    rw [List.nodup_cons] at hl
    rw [List.mem_cons] at hx
    push_neg at hx
    refine List.nodup_cons.mpr ⟨?_, ih hl.2 hx.2⟩
    intro hmem
    rcases List.mem_append.mp hmem with h | h
    · exact hl.1 h
    · exact hx.1 (List.mem_singleton.mp h).symm

lemma listDropMin (s : List Char) (m : Nat) : s.drop (min m s.length) = s.drop m := by
  rcases le_total m s.length with h | h
  · rw [min_eq_left h]
  · rw [min_eq_right h, List.drop_length, List.drop_eq_nil_of_le h]

lemma listTakeMin (s : List Char) (m : Nat) : s.take (min m s.length) = s.take m := by
  rcases le_total m s.length with h | h
  · rw [min_eq_left h]
  · rw [min_eq_right h, List.take_length, List.take_of_length_le h]

lemma jsSliceFrom_natCast (s : List Char) (m : Nat) : jsSliceFrom s (m : Int) = s.drop m := by
  simp only [jsSliceFrom]
  rw [if_neg (by omega)]
  have h : (min ((m : Nat) : Int) ((s.length : Nat) : Int)).toNat = min m s.length := by omega
  rw [h, listDropMin]

lemma jsSlice2_zero_natCast (s : List Char) (m : Nat) : jsSlice2 s 0 (m : Int) = s.take m := by
  simp only [jsSlice2]
  rw [if_neg (by omega), if_neg (by omega)]
  have h0 : (min (0 : Int) ((s.length : Nat) : Int)).toNat = 0 := by omega
  have h1 : (min ((m : Nat) : Int) ((s.length : Nat) : Int)).toNat = min m s.length := by omega
  rw [h0, h1, List.drop_zero, listTakeMin]

lemma generateNewFormPrefix_of_findSub (s : List Char) (n m : Nat)
    (h : findSub s totalFormsMarker = some m) :
    generateNewFormPrefix s n = s.take m ++ natChars n := by
  unfold generateNewFormPrefix jsIndexOf
  rw [h]
  exact congrArg (fun l => l ++ natChars n) (jsSlice2_zero_natCast s m)

lemma strContains_of_findLastSub (s pat : List Char) (p : Nat)
    (h : findLastSub s pat = some p) : strContains s pat = true := by
  induction s generalizing p with
  | nil =>
    unfold findLastSub at h
    by_cases hpre : pat.isPrefixOf ([] : List Char) = true
    · unfold strContains findSub
      rw [if_pos hpre]
      rfl
    · rw [if_neg hpre] at h
      cases h
  | cons c t ih =>
    unfold findLastSub at h
    unfold strContains findSub
    by_cases hpre : pat.isPrefixOf (c :: t) = true
    · rw [if_pos hpre]
      rfl
    · rw [if_neg hpre]
      cases htail : findLastSub t pat with
      | some i =>
        have hmem : strContains t pat = true := ih i htail
        unfold strContains at hmem
        obtain ⟨j, hj⟩ := Option.isSome_iff_exists.mp hmem
        rw [hj]
        rfl
      | none =>
        rw [htail, if_neg hpre] at h
        cases h

lemma renameControl_of_findLastSub (npre ipre : List Char) (c : Control) (p q : Nat)
    (hp : findLastSub c.name placeholderTok = some p)
    (hq : findLastSub c.id placeholderTok = some q) :
    renameControl npre ipre c =
      { name := npre ++ c.name.drop (p + 10), id := ipre ++ c.id.drop (q + 10) } := by
  unfold renameControl jsLastIndexOf
  rw [if_pos (strContains_of_findLastSub c.name placeholderTok p hp), hp, hq]
  have hcastp : ((p : Nat) : Int) + 10 = (((p + 10 : Nat) : Nat) : Int) := by push_cast; ring
  have hcastq : ((q : Nat) : Int) + 10 = (((q + 10 : Nat) : Nat) : Int) := by push_cast; ring
  rw [hcastp, hcastq, jsSliceFrom_natCast, jsSliceFrom_natCast]

lemma findLastSub_isPrefixOf (s pat : List Char) (p : Nat)
    (h : findLastSub s pat = some p) : pat.isPrefixOf (s.drop p) = true := by
  induction s generalizing p with
  | nil =>
    unfold findLastSub at h
    by_cases hpre : pat.isPrefixOf ([] : List Char) = true
    · rw [if_pos hpre] at h
      injection h with h0
      subst h0
      simpa using hpre
    · rw [if_neg hpre] at h
      cases h
  | cons c t ih =>
    unfold findLastSub at h
    cases htail : findLastSub t pat with
    | some i =>
      rw [htail] at h
      injection h with h0
      subst h0
      simpa using ih i htail
    | none =>
      rw [htail] at h
      by_cases hpre : pat.isPrefixOf (c :: t) = true
      · rw [if_pos hpre] at h
        injection h with h0
        subst h0
        simpa using hpre
      · rw [if_neg hpre] at h
        cases h

lemma findLastSub_none (s pat : List Char) (h : findLastSub s pat = none) :
    ∀ r, r ≤ s.length → pat.isPrefixOf (s.drop r) = false := by
  induction s with
  | nil =>
    intro r hr
    unfold findLastSub at h
    by_cases hpre : pat.isPrefixOf ([] : List Char) = true
    · rw [if_pos hpre] at h
      cases h
    · have hr0 : r = 0 := by simpa using hr
      subst hr0
      simpa using Bool.eq_false_iff.mpr hpre
  | cons c t ih =>
    intro r hr
    unfold findLastSub at h
    cases htail : findLastSub t pat with
    | some i =>
      rw [htail] at h
      cases h
    | none =>
      rw [htail] at h
      by_cases hpre : pat.isPrefixOf (c :: t) = true
      · rw [if_pos hpre] at h
        cases h
      · cases r with
        | zero => simpa using Bool.eq_false_iff.mpr hpre
        | succ r => simpa using ih htail r (by simpa using hr)

lemma findLastSub_ge (s pat : List Char) (p r : Nat)
    (h : findLastSub s pat = some p) (hr : pat.isPrefixOf (s.drop r) = true)
    (hrlen : r ≤ s.length) : r ≤ p := by
  induction s generalizing p r with
  | nil =>
    have hr0 : r = 0 := by simpa using hrlen
    omega
  | cons c t ih =>
    unfold findLastSub at h
    cases htail : findLastSub t pat with
    | some i =>
      rw [htail] at h
      injection h with h0
      cases r with
      | zero => omega
      | succ r =>
        have hle : r ≤ i := ih i r htail (by simpa using hr) (by simpa using hrlen)
        omega
    | none =>
      rw [htail] at h
      by_cases hpre : pat.isPrefixOf (c :: t) = true
      · rw [if_pos hpre] at h
        injection h with h0
        cases r with
        | zero => omega
        | succ r =>
          have hfalse : pat.isPrefixOf (t.drop r) = false :=
            findLastSub_none t pat htail r (by simpa using hrlen)
          have htrue : pat.isPrefixOf (t.drop r) = true := by simpa using hr
          rw [htrue] at hfalse
          cases hfalse
      · rw [if_neg hpre] at h
        cases h

lemma findSub_isPrefixOf (s pat : List Char) (m : Nat)
    (h : findSub s pat = some m) : pat.isPrefixOf (s.drop m) = true := by
  induction s generalizing m with
  | nil =>
    unfold findSub at h
    by_cases hpre : pat.isPrefixOf ([] : List Char) = true
    · rw [if_pos hpre] at h
      injection h with h0
      subst h0
      simpa using hpre
    · rw [if_neg hpre] at h
      cases h
  | cons c t ih =>
    unfold findSub at h
    by_cases hpre : pat.isPrefixOf (c :: t) = true
    · rw [if_pos hpre] at h
      injection h with h0
      subst h0
      simpa using hpre
    · rw [if_neg hpre] at h
      cases htail : findSub t pat with
      | some i =>
        rw [htail] at h
        rw [Option.map_some'] at h
        injection h with h0
        subst h0
        simpa using ih i htail
      | none =>
        rw [htail] at h
        cases h

lemma findSub_min (s pat : List Char) (m r : Nat)
    (h : findSub s pat = some m) (hr : pat.isPrefixOf (s.drop r) = true) : m ≤ r := by
  induction s generalizing m r with
  | nil =>
    unfold findSub at h
    by_cases hpre : pat.isPrefixOf ([] : List Char) = true
    · rw [if_pos hpre] at h
      injection h with h0
      omega
    · rw [if_neg hpre] at h
      cases h
  | cons c t ih =>
    unfold findSub at h
    by_cases hpre : pat.isPrefixOf (c :: t) = true
    · rw [if_pos hpre] at h
      injection h with h0
      omega
    · rw [if_neg hpre] at h
      cases htail : findSub t pat with
      | some i =>
        rw [htail] at h
        rw [Option.map_some'] at h
        injection h with h0
        cases r with
        | zero =>
          rw [List.drop_zero] at hr
          rw [hr] at hpre
          exact absurd rfl hpre
        | succ r =>
          have hle : i ≤ r := ih i r htail (by simpa using hr)
          omega
      | none =>
        rw [htail] at h
        cases h

/-- The add-control visibility that `addEmptyForm` computes, read off
its definition. -/
lemma addEmptyForm_addControlVisible (emptyForms : List Form) (fs : Formset)
    (formType : List Char) :
    (addEmptyForm formType fs emptyForms).addControlVisible
      = if fs.maxNumValue ≤ fs.totalValue + 1 then false else fs.addControlVisible := rfl

/-- The counter value that `addEmptyForm` writes back, read off its
definition. -/
lemma addEmptyForm_totalValue (emptyForms : List Form) (fs : Formset)
    (formType : List Char) :
    (addEmptyForm formType fs emptyForms).totalValue = fs.totalValue + 1 := rfl

/-- The row list that `addEmptyForm` produces, read off its
definition. -/
lemma addEmptyForm_forms (emptyForms : List Form) (fs : Formset) (formType : List Char) :
    (addEmptyForm formType fs emptyForms).forms
      = fs.forms ++ (emptyForms.filter (fun f => f.formType == formType)).map
          (renameForm (generateNewFormPrefix fs.totalName fs.totalValue)
            (generateNewFormPrefix fs.totalId fs.totalValue)) := rfl

/- ------------------------------------------------------------------
Claim theorems.
------------------------------------------------------------------ -/

/-- C3: the add-row operation hides the group's add-row control exactly
when `totalRows + 1 >= maxRows`, where `totalRows` is the counter value
before the call — one step before the bound itself is reached. -/
theorem addEmptyForm_C3 (emptyForms : List Form) (fs : Formset) (formType : List Char)
    (hvis : fs.addControlVisible = true) :
    ((addEmptyForm formType fs emptyForms).addControlVisible = false) ↔
      fs.totalValue + 1 ≥ fs.maxNumValue := by
  rw [addEmptyForm_addControlVisible]
  by_cases h : fs.maxNumValue ≤ fs.totalValue + 1
  · rw [if_pos h]
    simpa using h
  · rw [if_neg h, hvis]
    constructor
    · intro hfalse
      cases hfalse
    · intro hge
      exact absurd hge h

/-- Witness for C3 at a concrete formset: the hypothesis holds and the
instantiated equivalence follows from `addEmptyForm_C3`. -/
theorem addEmptyForm_C3_witness :
    egFormset.addControlVisible = true ∧
    (((addEmptyForm (str "row") egFormset [egBlueprint]).addControlVisible = false) ↔
      egFormset.totalValue + 1 ≥ egFormset.maxNumValue) :=
  ⟨by decide, addEmptyForm_C3 [egBlueprint] egFormset (str "row") (by decide)⟩

/-- C6: toggling row-deletion twice on the same row is the identity on
the row's DELETE checkbox and on the visibility of its deletable
body. -/
theorem toggleDeleteInline_C6 (f : InlineForm) :
    (toggleDeleteInline (toggleDeleteInline f)).deleteChecked = f.deleteChecked ∧
    (toggleDeleteInline (toggleDeleteInline f)).deletableHidden = f.deletableHidden := by
  cases f with
  | mk hi hc tbi hch bl dh ld ls lut dbs dc =>
    cases dh <;> simp [toggleDeleteInline]

/-- C8: `deleteField` hides the target, reveals the group-level notice,
and changes no DELETE checkbox and no other form control value. -/
theorem deleteField_C8 (v : FieldDeletionView) :
    (deleteField v).targetHidden = true ∧
    (deleteField v).groupNoticeShown = true ∧
    (deleteField v).deleteCheckboxes = v.deleteCheckboxes ∧
    (deleteField v).controlValues = v.controlValues := by
  simp [deleteField]

/-- C9: after a click on a `preferred` (or `authorised`) control the
clicked fieldset's control is always checked, whatever its state was
before the click: the handler forcibly re-checks it, so clicking a
second time cannot deselect it. -/
theorem preferredClick_C9 {I : Type} [DecidableEq I] (sibs : I → NameFieldset) (target : I) :
    (preferredClick sibs target target).preferredChecked = true ∧
    (authorisedClick sibs target target).authorisedChecked = true := by
  constructor
  · simp [preferredClick, preferredHandler, togglePreferredAt]
  · simp [authorisedClick, authorisedHandler, toggleAuthorisedAt]

/-- Clicking `preferred` on `target` leaves every other sibling's
`preferred` box unchecked. -/
lemma preferredClick_ne_target {I : Type} [DecidableEq I] (sibs : I → NameFieldset)
    (target j : I) (hj : j ≠ target) :
    (preferredClick sibs target j).preferredChecked = false := by
  simp [preferredClick, preferredHandler, togglePreferredAt, hj]

lemma authorisedClick_ne_target {I : Type} [DecidableEq I] (sibs : I → NameFieldset)
    (target j : I) (hj : j ≠ target) :
    (authorisedClick sibs target j).authorisedChecked = false := by
  simp [authorisedClick, authorisedHandler, toggleAuthorisedAt, hj]

/-- C5: after a click on the `preferred` control of fieldset `target`,
no sibling fieldset other than `target` has its `preferred` control
checked; the same holds for `authorised`; hence each flag is checked
on at most one sibling. -/
theorem preferredClick_C5 {I : Type} [DecidableEq I] (sibs : I → NameFieldset) (target : I) :
    (∀ j, j ≠ target → (preferredClick sibs target j).preferredChecked = false) ∧
    (∀ j, j ≠ target → (authorisedClick sibs target j).authorisedChecked = false) ∧
    (∀ j k, (preferredClick sibs target j).preferredChecked = true →
      (preferredClick sibs target k).preferredChecked = true → j = k) ∧
    (∀ j k, (authorisedClick sibs target j).authorisedChecked = true →
      (authorisedClick sibs target k).authorisedChecked = true → j = k) := by
  refine ⟨fun j hj => preferredClick_ne_target sibs target j hj,
    fun j hj => authorisedClick_ne_target sibs target j hj, ?_, ?_⟩
  · intro j k hjc hkc
    by_cases hj : j = target
    · by_cases hk : k = target
      · rw [hj, hk]
      · rw [preferredClick_ne_target sibs target k hk] at hkc
        cases hkc
    · rw [preferredClick_ne_target sibs target j hj] at hjc
      cases hjc
  · intro j k hjc hkc
    by_cases hj : j = target
    · by_cases hk : k = target
      · rw [hj, hk]
      · rw [authorisedClick_ne_target sibs target k hk] at hkc
        cases hkc
    · rw [authorisedClick_ne_target sibs target j hj] at hjc
      cases hjc

/-- Witness for C5 at two concrete sibling fieldsets that both start
with both flags checked: clicking fieldset 0 unchecks fieldset 1. -/
theorem preferredClick_C5_witness :
    (preferredClick egNameFieldsets 0 1).preferredChecked = false ∧
    (authorisedClick egNameFieldsets 0 1).authorisedChecked = false ∧
    (0 : Fin 2) = 0 :=
  ⟨(preferredClick_C5 egNameFieldsets 0).1 1 (by decide),
   (preferredClick_C5 egNameFieldsets 0).2.1 1 (by decide),
   (preferredClick_C5 egNameFieldsets 0).2.2.1 0 0 (by decide) (by decide)⟩

/-- C4 (corrected): selecting the `primary_record` radio of row
`target` re-enables the merge controls of every other row and leaves
their merge selections untouched, while the merge selection cleared
— and the merge controls disabled — are those of the NEWLY selected
primary row itself, not of the former primary. -/
theorem primaryRecordClick_C4 {I : Type} [DecidableEq I] (rows : I → DupRow) (target : I) :
    (∀ j, j ≠ target →
      (primaryRecordClick rows target j).mergeDisabled = false ∧
      (primaryRecordClick rows target j).mergeSel = (rows j).mergeSel) ∧
    (primaryRecordClick rows target target).mergeSel = none ∧
    (primaryRecordClick rows target target).mergeDisabled = true := by
  refine ⟨?_, ?_, ?_⟩
  · intro j hj
    constructor
    · simp [primaryRecordClick, primaryRecordHandler, radioSelectPrimary, hj]
    · simp [primaryRecordClick, primaryRecordHandler, radioSelectPrimary, hj]
  · simp [primaryRecordClick, primaryRecordHandler, radioSelectPrimary]
  · simp [primaryRecordClick, primaryRecordHandler, radioSelectPrimary]

/-- Witness for C4 at the concrete two-row table: row 0 is the former
primary, row 1 is clicked. -/
theorem primaryRecordClick_C4_witness :
    ((primaryRecordClick cexDupRows 1 0).mergeDisabled = false ∧
     (primaryRecordClick cexDupRows 1 0).mergeSel = (cexDupRows 0).mergeSel) ∧
    (primaryRecordClick cexDupRows 1 1).mergeSel = none ∧
    (primaryRecordClick cexDupRows 1 1).mergeDisabled = true :=
  ⟨(primaryRecordClick_C4 cexDupRows 1).1 0 (by decide),
   (primaryRecordClick_C4 cexDupRows 1).2⟩

/-- C4 counterexample to the claim as stated: in the concrete table
`cexDupRows`, row 0 is the checked primary and its adjacent duplicate
cell has a checked merge radio; after the `primary_record` click on
row 1 that selection is still there — the handler does NOT clear the
former primary's paired cell (it clears the newly selected row's
cell, see the corrected theorem). -/
theorem primaryRecordClick_C4_counterexample :
    (cexDupRows 0).primaryChecked = true ∧
    (cexDupRows 0).mergeSel = some true ∧
    (primaryRecordClick cexDupRows 1 0).mergeSel = some true ∧
    ¬ (primaryRecordClick cexDupRows 1 0).mergeSel = none := by
  decide

/-- C10: `addDuplicate` keeps record ids unique: when a
`primary_record` radio with the candidate id exists the table is left
unchanged and the error notification is shown; otherwise exactly one
row for the candidate id is appended and the success notification is
shown; in both cases the resulting notification state no longer
contains the previous notification, and id-uniqueness of the table is
preserved. -/
theorem addDuplicate_C10 (page : DuplicatesPage) :
    (page.rows.any (fun r => r.primaryValue == duplicateRecordId) = true →
      (addDuplicate page).rows = page.rows ∧
      (addDuplicate page).notification = some false) ∧
    (page.rows.any (fun r => r.primaryValue == duplicateRecordId) = false →
      (addDuplicate page).rows = page.rows ++ [newDuplicateRow duplicateRecordId] ∧
      (addDuplicate page).notification = some true) ∧
    ((page.rows.map (fun r => r.primaryValue)).Nodup →
      ((addDuplicate page).rows.map (fun r => r.primaryValue)).Nodup) := by
  refine ⟨?_, ?_, ?_⟩
  · intro h
    constructor
    · simp [addDuplicate, h]
    · simp [addDuplicate, h]
  · intro h
    constructor
    · simp [addDuplicate, h]
    · simp [addDuplicate, h]
  · intro hnd
    cases hany : page.rows.any (fun r => r.primaryValue == duplicateRecordId) with
    | true => simpa [addDuplicate, hany] using hnd
    | false =>
      have hnotmem : duplicateRecordId ∉ page.rows.map (fun r => r.primaryValue) := by
        intro hmem
        obtain ⟨r, hr, hrv⟩ := List.mem_map.mp hmem
        have := List.any_eq_false.mp hany r hr
        rw [hrv] at this
        simp at this
      have hrows : (addDuplicate page).rows
          = page.rows ++ [newDuplicateRow duplicateRecordId] := by
        simp [addDuplicate, hany]
      rw [hrows, List.map_append]
      exact listNodupAppendSingleton _ _ hnd (by simpa using hnotmem)

/-- Witness for C10 at a concrete page that does not contain the
candidate record: both the append branch and uniqueness preservation
are discharged. -/
theorem addDuplicate_C10_witness :
    (addDuplicate egDuplicatesPage).rows
      = egDuplicatesPage.rows ++ [newDuplicateRow duplicateRecordId] ∧
    (addDuplicate egDuplicatesPage).notification = some true ∧
    ((addDuplicate egDuplicatesPage).rows.map (fun r => r.primaryValue)).Nodup :=
  ⟨((addDuplicate_C10 egDuplicatesPage).2.1 (by decide)).1,
   ((addDuplicate_C10 egDuplicatesPage).2.1 (by decide)).2,
   (addDuplicate_C10 egDuplicatesPage).2.2 (by decide)⟩

/-- With a unique blueprint for the requested form type, the row list
produced by `addEmptyForm` is the old list plus the renamed clone. -/
lemma addEmptyForm_forms_singleton (emptyForms : List Form) (fs : Formset)
    (formType : List Char) (bp : Form)
    (hbp : emptyForms.filter (fun f => f.formType == formType) = [bp]) :
    (addEmptyForm formType fs emptyForms).forms
      = fs.forms ++ [renameForm (generateNewFormPrefix fs.totalName fs.totalValue)
          (generateNewFormPrefix fs.totalId fs.totalValue) bp] := by
  rw [addEmptyForm_forms, hbp]
  rfl

/-- The control at position `j` of the renamed clone is the renaming of
the blueprint's control at position `j`. -/
lemma renameForm_controls_getD (npre ipre : List Char) (bp : Form) (j : Nat)
    (hj : j < bp.controls.length) :
    (renameForm npre ipre bp).controls.getD j defaultControl
      = renameControl npre ipre (bp.controls.getD j defaultControl) := by
  unfold renameForm
  exact listGetDMap (renameControl npre ipre) bp.controls j defaultControl defaultControl hj

/-- C1: for a group whose counter holds `totalRows = n < maxRows`, one
`addEmptyForm` call appends exactly one new row cloned from the (unique)
blueprint of the given form type, writes `n + 1` back to the
TOTAL_FORMS control, and every renamed field of the new row carries the
index `n` (the pre-increment counter value) right after the prefix
derived from the TOTAL_FORMS control, in its name and in its id. -/
theorem addEmptyForm_C1 (emptyForms : List Form) (fs : Formset) (formType : List Char)
    (bp : Form) (m mId : Nat)
    (hbp : emptyForms.filter (fun f => f.formType == formType) = [bp])
    (hlt : fs.totalValue < fs.maxNumValue)
    (hm : findSub fs.totalName totalFormsMarker = some m)
    (hmId : findSub fs.totalId totalFormsMarker = some mId) :
    (addEmptyForm formType fs emptyForms).totalValue = fs.totalValue + 1 ∧
    (addEmptyForm formType fs emptyForms).forms.length = fs.forms.length + 1 ∧
    (addEmptyForm formType fs emptyForms).forms.take fs.forms.length = fs.forms ∧
    ((addEmptyForm formType fs emptyForms).forms.getD fs.forms.length defaultForm).formType
      = bp.formType ∧
    ∀ j, j < bp.controls.length →
      strContains (bp.controls.getD j defaultControl).name placeholderTok = true →
      (∃ tail,
        (((addEmptyForm formType fs emptyForms).forms.getD fs.forms.length
            defaultForm).controls.getD j defaultControl).name
          = fs.totalName.take m ++ natChars fs.totalValue ++ tail) ∧
      (∃ tail,
        (((addEmptyForm formType fs emptyForms).forms.getD fs.forms.length
            defaultForm).controls.getD j defaultControl).id
          = fs.totalId.take mId ++ natChars fs.totalValue ++ tail) := by
  refine ⟨addEmptyForm_totalValue emptyForms fs formType, ?_, ?_, ?_, ?_⟩
  · rw [addEmptyForm_forms_singleton emptyForms fs formType bp hbp]
    simp
  · rw [addEmptyForm_forms_singleton emptyForms fs formType bp hbp]
    exact listTakeLeft fs.forms _
  · rw [addEmptyForm_forms_singleton emptyForms fs formType bp hbp, listGetDAppendLength]
    rfl
  · intro j hj hcont
    rw [addEmptyForm_forms_singleton emptyForms fs formType bp hbp, listGetDAppendLength,
      renameForm_controls_getD _ _ bp j hj]
    unfold renameControl
    rw [if_pos hcont]
    constructor
    · refine ⟨jsSliceFrom (bp.controls.getD j defaultControl).name
        (jsLastIndexOf (bp.controls.getD j defaultControl).name placeholderTok + 10), ?_⟩
      rw [generateNewFormPrefix_of_findSub fs.totalName fs.totalValue m hm,
        List.append_assoc]
    · refine ⟨jsSliceFrom (bp.controls.getD j defaultControl).id
        (jsLastIndexOf (bp.controls.getD j defaultControl).id placeholderTok + 10), ?_⟩
      rw [generateNewFormPrefix_of_findSub fs.totalId fs.totalValue mId hmId,
        List.append_assoc]

/-- Witness for C1 at the concrete formset and blueprint: every
hypothesis is discharged by evaluation and the conclusion is the
theorem instantiated there. -/
theorem addEmptyForm_C1_witness :
    ([egBlueprint].filter (fun f => f.formType == str "row") = [egBlueprint] ∧
     egFormset.totalValue < egFormset.maxNumValue ∧
     findSub egFormset.totalName totalFormsMarker = some 5 ∧
     findSub egFormset.totalId totalFormsMarker = some 8) ∧
    ((addEmptyForm (str "row") egFormset [egBlueprint]).totalValue
        = egFormset.totalValue + 1 ∧
     (addEmptyForm (str "row") egFormset [egBlueprint]).forms.length
        = egFormset.forms.length + 1 ∧
     (addEmptyForm (str "row") egFormset [egBlueprint]).forms.take egFormset.forms.length
        = egFormset.forms ∧
     ((addEmptyForm (str "row") egFormset [egBlueprint]).forms.getD egFormset.forms.length
        defaultForm).formType = egBlueprint.formType ∧
     ∀ j, j < egBlueprint.controls.length →
       strContains (egBlueprint.controls.getD j defaultControl).name placeholderTok = true →
       (∃ tail,
         (((addEmptyForm (str "row") egFormset [egBlueprint]).forms.getD
             egFormset.forms.length defaultForm).controls.getD j defaultControl).name
           = egFormset.totalName.take 5 ++ natChars egFormset.totalValue ++ tail) ∧
       (∃ tail,
         (((addEmptyForm (str "row") egFormset [egBlueprint]).forms.getD
             egFormset.forms.length defaultForm).controls.getD j defaultControl).id
           = egFormset.totalId.take 8 ++ natChars egFormset.totalValue ++ tail)) :=
  ⟨⟨by decide, by decide, by decide, by decide⟩,
   addEmptyForm_C1 [egBlueprint] egFormset (str "row") egBlueprint 5 8
     (by decide) (by decide) (by decide) (by decide)⟩

/-- C2 (corrected): during add-row, for every control of the cloned row
whose NAME attribute contains `__prefix__` (the jQuery selector of
main.js line 532 selects by name only), the substring of the name up to
and including the last occurrence of `__prefix__` — and likewise of the
id, using the id's own last occurrence — is replaced by the new prefix,
which is the substring of the TOTAL_FORMS control's name/id attribute
strictly before the `TOTAL_FORMS` marker followed by the new row's
index.  (`findLastSub_isPrefixOf`/`findLastSub_ge` characterise `p` and
`q` as last occurrences, `findSub_isPrefixOf`/`findSub_min` characterise
`m` and `mId` as the marker's first occurrence.) -/
theorem addEmptyForm_C2 (emptyForms : List Form) (fs : Formset) (formType : List Char)
    (bp : Form) (j p q m mId : Nat)
    (hbp : emptyForms.filter (fun f => f.formType == formType) = [bp])
    (hj : j < bp.controls.length)
    (hp : findLastSub (bp.controls.getD j defaultControl).name placeholderTok = some p)
    (hq : findLastSub (bp.controls.getD j defaultControl).id placeholderTok = some q)
    (hm : findSub fs.totalName totalFormsMarker = some m)
    (hmId : findSub fs.totalId totalFormsMarker = some mId) :
    (((addEmptyForm formType fs emptyForms).forms.getD fs.forms.length
        defaultForm).controls.getD j defaultControl).name
      = (fs.totalName.take m ++ natChars fs.totalValue)
          ++ (bp.controls.getD j defaultControl).name.drop (p + placeholderTok.length) ∧
    (((addEmptyForm formType fs emptyForms).forms.getD fs.forms.length
        defaultForm).controls.getD j defaultControl).id
      = (fs.totalId.take mId ++ natChars fs.totalValue)
          ++ (bp.controls.getD j defaultControl).id.drop (q + placeholderTok.length) := by
  rw [addEmptyForm_forms_singleton emptyForms fs formType bp hbp, listGetDAppendLength,
    renameForm_controls_getD _ _ bp j hj,
    renameControl_of_findLastSub _ _ (bp.controls.getD j defaultControl) p q hp hq]
  have hlen : placeholderTok.length = 10 := by decide
  rw [hlen]
  constructor
  · rw [generateNewFormPrefix_of_findSub fs.totalName fs.totalValue m hm]
  · rw [generateNewFormPrefix_of_findSub fs.totalId fs.totalValue mId hmId]

/-- C2 counterexample to the claim as stated ("name or id"): a control
whose id contains the placeholder token but whose name does not is left
completely unchanged by add-row — after the call its id still contains
`__prefix__`, so no prefix replacement happened on it. -/
theorem addEmptyForm_C2_counterexample :
    strContains (str "plain") placeholderTok = false ∧
    strContains (str "id___prefix__-x") placeholderTok = true ∧
    ((addEmptyForm (str "row") egFormset [cexBlueprint]).forms.getD 0
        defaultForm).controls.getD 0 defaultControl
      = { name := str "plain", id := str "id___prefix__-x" } ∧
    strContains (((addEmptyForm (str "row") egFormset [cexBlueprint]).forms.getD 0
        defaultForm).controls.getD 0 defaultControl).id placeholderTok = true := by
  decide

/-- Witness for C2's corrected theorem at the concrete formset and
blueprint: the last occurrences and marker positions are evaluated by
`decide` and the instantiated conclusion follows from
`addEmptyForm_C2`. -/
theorem addEmptyForm_C2_witness :
    (egBlueprint.controls.getD 0 defaultControl).name.drop (4 + placeholderTok.length)
        = str "-title" ∧
    (((addEmptyForm (str "row") egFormset [egBlueprint]).forms.getD egFormset.forms.length
        defaultForm).controls.getD 0 defaultControl).name
      = (egFormset.totalName.take 5 ++ natChars egFormset.totalValue)
          ++ (egBlueprint.controls.getD 0 defaultControl).name.drop
              (4 + placeholderTok.length) ∧
    (((addEmptyForm (str "row") egFormset [egBlueprint]).forms.getD egFormset.forms.length
        defaultForm).controls.getD 0 defaultControl).id
      = (egFormset.totalId.take 8 ++ natChars egFormset.totalValue)
          ++ (egBlueprint.controls.getD 0 defaultControl).id.drop
              (7 + placeholderTok.length) :=
  ⟨by decide,
   (addEmptyForm_C2 [egBlueprint] egFormset (str "row") egBlueprint 0 4 7 5 8
     (by decide) (by decide) (by decide) (by decide) (by decide) (by decide)).1,
   (addEmptyForm_C2 [egBlueprint] egFormset (str "row") egBlueprint 0 4 7 5 8
     (by decide) (by decide) (by decide) (by decide) (by decide) (by decide)).2⟩

lemma insertTranscription_perm (x : TranscriptionRec) (l : List TranscriptionRec) :
    List.Perm (insertTranscription x l) (x :: l) := by
  induction l with
  | nil => exact List.Perm.refl _
  | cons y ys ih =>
    unfold insertTranscription
    by_cases h : transcriptionCmp x y ≤ 0
    · rw [if_pos h]
    · rw [if_neg h]
      exact (ih.cons y).trans (List.Perm.swap x y ys)

lemma sortTranscriptions_perm (l : List TranscriptionRec) :
    List.Perm (sortTranscriptions l) l := by
  induction l with
  | nil => exact List.Perm.refl _
  | cons x xs ih =>
    exact (insertTranscription_perm x (sortTranscriptions xs)).trans (ih.cons x)

lemma transcriptionCmp_le (a b : TranscriptionRec)
    (ha : (transcriptionKey a).isSome = true) (hb : (transcriptionKey b).isSome = true) :
    transcriptionCmp a b ≤ 0 ↔ transcriptionKeyD a ≤ transcriptionKeyD b := by
  obtain ⟨x, hx⟩ := Option.isSome_iff_exists.mp ha
  obtain ⟨y, hy⟩ := Option.isSome_iff_exists.mp hb
  unfold transcriptionCmp transcriptionKeyD
  rw [hx, hy]
  show x - y ≤ 0 ↔ (some x).getD 0 ≤ (some y).getD 0
  simp only [Option.getD_some]
  omega

lemma transcriptionCmp_pos (a b : TranscriptionRec)
    (ha : (transcriptionKey a).isSome = true) (hb : (transcriptionKey b).isSome = true)
    (h : ¬ transcriptionCmp a b ≤ 0) : transcriptionKeyD b ≤ transcriptionKeyD a := by
  obtain ⟨x, hx⟩ := Option.isSome_iff_exists.mp ha
  obtain ⟨y, hy⟩ := Option.isSome_iff_exists.mp hb
  unfold transcriptionCmp at h
  rw [hx, hy] at h
  unfold transcriptionKeyD
  rw [hx, hy]
  simp only [Option.getD_some]
  have h2 : ¬ (x - y ≤ 0) := h
  omega

lemma insertTranscription_pairwise (x : TranscriptionRec) (l : List TranscriptionRec)
    (hx : (transcriptionKey x).isSome = true)
    (hl : ∀ y ∈ l, (transcriptionKey y).isSome = true)
    (hp : List.Pairwise (fun a b => transcriptionKeyD a ≤ transcriptionKeyD b) l) :
    List.Pairwise (fun a b => transcriptionKeyD a ≤ transcriptionKeyD b)
      (insertTranscription x l) := by
  induction l with
  | nil => simp [insertTranscription]
  | cons y ys ih =>
    rw [List.pairwise_cons] at hp
    unfold insertTranscription
    by_cases h : transcriptionCmp x y ≤ 0
    · rw [if_pos h]
      have hxy : transcriptionKeyD x ≤ transcriptionKeyD y :=
        (transcriptionCmp_le x y hx (hl y (by simp))).mp h
      refine List.pairwise_cons.mpr ⟨?_, List.pairwise_cons.mpr ⟨hp.1, hp.2⟩⟩
      intro z hz
      rcases List.mem_cons.mp hz with rfl | hz
      · exact hxy
      · exact le_trans hxy (hp.1 z hz)
    · rw [if_neg h]
      have hyx : transcriptionKeyD y ≤ transcriptionKeyD x :=
        transcriptionCmp_pos x y hx (hl y (by simp)) h
      refine List.pairwise_cons.mpr ⟨?_, ih (fun z hz => hl z (by simp [hz])) hp.2⟩
      intro z hz
      have hz2 := (insertTranscription_perm x ys).mem_iff.mp hz
      rcases List.mem_cons.mp hz2 with rfl | hz3
      · exact hyx
      · exact hp.1 z hz3

lemma sortTranscriptions_pairwise (l : List TranscriptionRec)
    (hl : ∀ t ∈ l, (transcriptionKey t).isSome = true) :
    List.Pairwise (fun a b => transcriptionKeyD a ≤ transcriptionKeyD b)
      (sortTranscriptions l) := by
  induction l with
  | nil => simp [sortTranscriptions]
  | cons x xs ih =>
    unfold sortTranscriptions
    refine insertTranscription_pairwise x (sortTranscriptions xs) (hl x (by simp)) ?_ ?_
    · intro y hy
      exact hl y (by simp [(sortTranscriptions_perm xs).mem_iff.mp hy])
    · exact ih (fun y hy => hl y (by simp [hy]))

lemma insertTranscription_filter (x : TranscriptionRec) (l : List TranscriptionRec)
    (k : Int) :
    (insertTranscription x l).filter (fun t => transcriptionKey t == some k)
      = if transcriptionKey x == some k
        then x :: l.filter (fun t => transcriptionKey t == some k)
        else l.filter (fun t => transcriptionKey t == some k) := by
  induction l with
  | nil =>
    unfold insertTranscription
    rw [List.filter_cons, List.filter_nil]
  | cons y ys ih =>
    unfold insertTranscription
    by_cases h : transcriptionCmp x y ≤ 0
    · rw [if_pos h]
      simp [List.filter_cons]
    · rw [if_neg h]
      simp only [List.filter_cons, ih]
      by_cases px : (transcriptionKey x == some k) = true
      · have hx : transcriptionKey x = some k := by simpa using px
        by_cases py : (transcriptionKey y == some k) = true
        · have hy : transcriptionKey y = some k := by simpa using py
          exfalso
          apply h
          simp only [transcriptionCmp, hx, hy]
          omega
        · simp [px, py]
      · simp [px]

lemma sortTranscriptions_filter (l : List TranscriptionRec) (k : Int) :
    (sortTranscriptions l).filter (fun t => transcriptionKey t == some k)
      = l.filter (fun t => transcriptionKey t == some k) := by
  induction l with
  | nil => rfl
  | cons x xs ih =>
    unfold sortTranscriptions
    rw [insertTranscription_filter, List.filter_cons, ih]

lemma mapWithIndexFrom_map_pk (l : List TranscriptionRec) (k : Nat) :
    (mapWithIndexFrom (fun i t =>
        ({ idx := i, pk := t.pk, transcription := t.fields.transcription }
          : RenderedTranscription)) k l).map (fun r => r.pk)
      = l.map (fun t => t.pk) := by
  induction l generalizing k with
  | nil => rfl
  | cons x xs ih => simp [mapWithIndexFrom, ih]

lemma mapWithIndexFrom_map_idx (l : List TranscriptionRec) (k : Nat) :
    (mapWithIndexFrom (fun i t =>
        ({ idx := i, pk := t.pk, transcription := t.fields.transcription }
          : RenderedTranscription)) k l).map (fun r => r.idx)
      = List.range' k l.length := by
  induction l generalizing k with
  | nil => rfl
  | cons x xs ih =>
    simp only [mapWithIndexFrom, List.map_cons, List.length_cons]
    rw [show List.range' k (xs.length + 1) = k :: List.range' (k + 1) xs.length from rfl]
    rw [ih]

lemma renderTranscriptions_map_pk (data : List TranscriptionRec) :
    (renderTranscriptions data).map (fun r => r.pk)
      = (sortTranscriptions data).map (fun t => t.pk) := by
  unfold renderTranscriptions mapWithIndex
  exact mapWithIndexFrom_map_pk (sortTranscriptions data) 0

lemma renderTranscriptions_map_idx (data : List TranscriptionRec) :
    (renderTranscriptions data).map (fun r => r.idx)
      = List.range (sortTranscriptions data).length := by
  unfold renderTranscriptions mapWithIndex
  rw [mapWithIndexFrom_map_idx, List.range_eq_range']

/-- C7: the transcription loader renders the fetched records sorted
ascending by the numeric value of the `order` field (when every order
parses), ties broken by original response order — the sorted list is a
permutation of the input whose key-classes keep their original relative
order —, the rendered fragments carry the sorted records' pks with
consecutive indices from 0, and on the spec's concrete two-record input
the rendered order is pk 1 then pk 2. -/
theorem fetchTranscriptions_C7 (data : List TranscriptionRec)
    (hdata : ∀ t ∈ data, (transcriptionKey t).isSome = true) :
    List.Perm (sortTranscriptions data) data ∧
    List.Pairwise (fun a b => transcriptionKeyD a ≤ transcriptionKeyD b)
      (sortTranscriptions data) ∧
    (∀ k : Int, (sortTranscriptions data).filter (fun t => transcriptionKey t == some k)
        = data.filter (fun t => transcriptionKey t == some k)) ∧
    (renderTranscriptions data).map (fun r => r.pk)
        = (sortTranscriptions data).map (fun t => t.pk) ∧
    (renderTranscriptions data).map (fun r => r.idx)
        = List.range (sortTranscriptions data).length ∧
    renderTranscriptions egTranscriptions
      = [ { idx := 0, pk := 1, transcription := str "first" },
          { idx := 1, pk := 2, transcription := str "second" } ] :=
  ⟨sortTranscriptions_perm data, sortTranscriptions_pairwise data hdata,
   fun k => sortTranscriptions_filter data k, renderTranscriptions_map_pk data,
   renderTranscriptions_map_idx data, by decide⟩

/-- Witness for C7 at the spec's concrete input: the parse hypothesis
is discharged by evaluation and the conclusion is the theorem
instantiated there. -/
theorem fetchTranscriptions_C7_witness :
    List.Perm (sortTranscriptions egTranscriptions) egTranscriptions ∧
    List.Pairwise (fun a b => transcriptionKeyD a ≤ transcriptionKeyD b)
      (sortTranscriptions egTranscriptions) ∧
    (∀ k : Int,
      (sortTranscriptions egTranscriptions).filter (fun t => transcriptionKey t == some k)
        = egTranscriptions.filter (fun t => transcriptionKey t == some k)) ∧
    (renderTranscriptions egTranscriptions).map (fun r => r.pk)
        = (sortTranscriptions egTranscriptions).map (fun t => t.pk) ∧
    (renderTranscriptions egTranscriptions).map (fun r => r.idx)
        = List.range (sortTranscriptions egTranscriptions).length ∧
    renderTranscriptions egTranscriptions
      = [ { idx := 0, pk := 1, transcription := str "first" },
          { idx := 1, pk := 2, transcription := str "second" } ] :=
  fetchTranscriptions_C7 egTranscriptions (by decide)
